import Mathlib

/-!
# Verification of the StatQuant training loop

Shallow embedding of `src/image_classification/training.py`: learning-rate
policies, optimizer construction, the train/validation step functions, the
per-epoch batch loops, and the `train_loop` orchestrator.

Floating-point values are modelled by real numbers (`ℝ`) where the source
uses transcendental functions (`np.cos`, `np.log2`, `np.power`), and the
state-threading loops are generic over a `Field`/`LinearOrderedField` so
that concrete runs can be evaluated over `ℚ`.  Tensor values, autograd
gradients, the SGD update rule, `utils.accuracy` and `utils.reduce_tensor`
belong to external libraries (torch / numpy / the repo's `utils` module) and
enter the model as abstract parameters; the control flow, arithmetic and
bookkeeping proved about below are translated from `training.py` itself.
-/

namespace StatQuant

/-! ## Learning-rate policies (training.py lines 115-167)

Each `lr_*_policy` in the source closes over its parameters and returns a
function `_lr_fn(iteration, epoch)`; the iteration argument is unused by all
four curves, so the embeddings below are functions of the epoch alone.
Python integer subtraction may go negative, so `epoch - warmup_length` style
quantities are computed in `ℤ` before being cast to `ℝ` (except where the
branch guard already forces `warmup_length ≤ epoch` and a `ℕ` exponent is
what Python's `**` computes). -/

/-- `lr_step_policy`'s `_lr_fn` (lines 116-124): warmup ramp, then one
multiplication by `decay_factor` for every threshold in `steps` that the
epoch has reached. -/
noncomputable def lr_step_fn (base_lr : ℝ) (steps : List ℕ) (decay_factor : ℝ)
    (warmup_length : ℕ) (epoch : ℕ) : ℝ :=
  if epoch < warmup_length then
    base_lr * ((epoch : ℝ) + 1) / (warmup_length : ℝ)
  else
    steps.foldl (fun lr s => if s ≤ epoch then lr * decay_factor else lr) base_lr

/-- `lr_linear_policy`'s `_lr_fn` (lines 130-137): warmup ramp, then linear
decay from `base_lr` to 0 over the post-warmup span. -/
noncomputable def lr_linear_fn (base_lr : ℝ) (warmup_length epochs : ℕ)
    (epoch : ℕ) : ℝ :=
  if epoch < warmup_length then
    base_lr * ((epoch : ℝ) + 1) / (warmup_length : ℝ)
  else
    base_lr * (1 - (((epoch : ℤ) - (warmup_length : ℤ) : ℤ) : ℝ) /
      (((epochs : ℤ) - (warmup_length : ℤ) : ℤ) : ℝ))

/-- `lr_cosine_policy`'s `_lr_fn` (lines 143-150): warmup ramp, then
half-cosine decay from `base_lr` to 0 over the post-warmup span. -/
noncomputable def lr_cosine_fn (base_lr : ℝ) (warmup_length epochs : ℕ)
    (epoch : ℕ) : ℝ :=
  if epoch < warmup_length then
    base_lr * ((epoch : ℝ) + 1) / (warmup_length : ℝ)
  else
    0.5 * (1 + Real.cos (Real.pi *
      (((epoch : ℤ) - (warmup_length : ℤ) : ℤ) : ℝ) /
      (((epochs : ℤ) - (warmup_length : ℤ) : ℤ) : ℝ))) * base_lr

/-- `lr_exponential_policy`'s `_lr_fn` (lines 155-165): warmup ramp, then
`base_lr * epoch_decay ** e` with `epoch_decay = 2 ** (log2 fm / es)` and
`e = epoch - warmup_length`, `es = epochs - warmup_length`.  The outer power
has a non-negative integer exponent in the post-warmup branch, so it is a
monoid power; the decay constant uses the real power `2 ^ x`. -/
noncomputable def lr_exponential_fn (base_lr : ℝ) (warmup_length epochs : ℕ)
    (final_multiplier : ℝ) (epoch : ℕ) : ℝ :=
  if epoch < warmup_length then
    base_lr * ((epoch : ℝ) + 1) / (warmup_length : ℝ)
  else
    base_lr * ((2 : ℝ) ^ (Real.logb 2 final_multiplier /
      (((epochs : ℤ) - (warmup_length : ℤ) : ℤ) : ℝ))) ^ (epoch - warmup_length)

/-- C5: for every learning-rate curve (step, linear, cosine, exponential) and
every epoch `e < warmup_length`, the computed learning rate equals
`base_lr * (e+1) / warmup_length`, independent of the curve's other
parameters. -/
theorem warmup_lr_uniform (base_lr decay_factor final_multiplier : ℝ)
    (steps : List ℕ) (warmup_length epochs e : ℕ) (h : e < warmup_length) :
    lr_step_fn base_lr steps decay_factor warmup_length e
        = base_lr * ((e : ℝ) + 1) / (warmup_length : ℝ) ∧
    lr_linear_fn base_lr warmup_length epochs e
        = base_lr * ((e : ℝ) + 1) / (warmup_length : ℝ) ∧
    lr_cosine_fn base_lr warmup_length epochs e
        = base_lr * ((e : ℝ) + 1) / (warmup_length : ℝ) ∧
    lr_exponential_fn base_lr warmup_length epochs final_multiplier e
        = base_lr * ((e : ℝ) + 1) / (warmup_length : ℝ) := by
  refine ⟨?_, ?_, ?_, ?_⟩ <;>
    simp [lr_step_fn, lr_linear_fn, lr_cosine_fn, lr_exponential_fn, if_pos h]

/-- Witness for C5 at `base_lr = 3`, `warmup_length = 5`, `e = 2`. -/
theorem warmup_lr_uniform_witness :
    2 < 5 ∧
    (lr_step_fn 3 [30, 60] (1/10) 5 2 = 3 * (((2 : ℕ) : ℝ) + 1) / ((5 : ℕ) : ℝ) ∧
     lr_linear_fn 3 5 10 2 = 3 * (((2 : ℕ) : ℝ) + 1) / ((5 : ℕ) : ℝ) ∧
     lr_cosine_fn 3 5 10 2 = 3 * (((2 : ℕ) : ℝ) + 1) / ((5 : ℕ) : ℝ) ∧
     lr_exponential_fn 3 5 10 (1/1000) 2 = 3 * (((2 : ℕ) : ℝ) + 1) / ((5 : ℕ) : ℝ)) :=
  ⟨by norm_num, warmup_lr_uniform 3 (1/10) (1/1000) [30, 60] 5 10 2 (by norm_num)⟩

/-- C8: with `warmup_length = 0` the warmup branch (the one that divides by
`warmup_length`) is never taken for any epoch, because `epoch < 0` is false
for every natural epoch index: each curve evaluates to its post-warmup
expression, so no division by zero is performed. -/
theorem warmup_zero_branch_not_taken (base_lr decay_factor final_multiplier : ℝ)
    (steps : List ℕ) (epochs e : ℕ) :
    lr_step_fn base_lr steps decay_factor 0 e
        = steps.foldl (fun lr s => if s ≤ e then lr * decay_factor else lr) base_lr ∧
    lr_linear_fn base_lr 0 epochs e
        = base_lr * (1 - (e : ℝ) / (epochs : ℝ)) ∧
    lr_cosine_fn base_lr 0 epochs e
        = 0.5 * (1 + Real.cos (Real.pi * (e : ℝ) / (epochs : ℝ))) * base_lr ∧
    lr_exponential_fn base_lr 0 epochs final_multiplier e
        = base_lr * ((2 : ℝ) ^ (Real.logb 2 final_multiplier / (epochs : ℝ))) ^ e := by
  refine ⟨?_, ?_, ?_, ?_⟩ <;>
    simp [lr_step_fn, lr_linear_fn, lr_cosine_fn, lr_exponential_fn]

/-- Post-warmup closed form of the exponential curve: for `0 < final_multiplier`
and `warmup_length ≤ epoch`, with `warmup_length < epochs`, the learning rate is
`base_lr * final_multiplier ^ ((epoch - warmup_length) / (epochs - warmup_length))`
(real exponent). -/
theorem lr_exponential_post_warmup (base_lr final_multiplier : ℝ)
    (warmup_length epochs epoch : ℕ) (hfm : 0 < final_multiplier)
    (hw : warmup_length ≤ epoch) (hlt : warmup_length < epochs) :
    lr_exponential_fn base_lr warmup_length epochs final_multiplier epoch
      = base_lr * final_multiplier ^
          (((epoch - warmup_length : ℕ) : ℝ) / ((epochs - warmup_length : ℕ) : ℝ)) := by
  have h2 : (0 : ℝ) ≤ 2 := by norm_num
  have hesR : (((epochs : ℤ) - (warmup_length : ℤ) : ℤ) : ℝ)
      = ((epochs - warmup_length : ℕ) : ℝ) := by
    rw [Nat.cast_sub hlt.le]
    push_cast
    ring
  rw [lr_exponential_fn, if_neg (by omega), hesR]
  congr 1
  rw [← Real.rpow_natCast ((2 : ℝ) ^ (Real.logb 2 final_multiplier /
        ((epochs - warmup_length : ℕ) : ℝ))) (epoch - warmup_length),
      ← Real.rpow_mul h2, div_mul_eq_mul_div, mul_div_assoc,
      Real.rpow_mul h2,
      Real.rpow_logb (by norm_num) (by norm_num) hfm]

/-- C4 counterexample: for `base_lr = 1`, `warmup_length = 0`, `epochs = 2`,
`final_multiplier = 1/4`, the learning rate at the final epoch `epochs - 1 = 1`
is `(1/4)^(1/2) = 1/2`, which is not `base_lr * final_multiplier = 1/4` (a
factor of 2 away, far beyond floating tolerance). -/
theorem exp_lr_final_epoch_counterexample :
    lr_exponential_fn 1 0 2 (1/4) (2 - 1) = 1/2 ∧ (1/2 : ℝ) ≠ 1 * (1/4) := by
  constructor
  · have h := lr_exponential_post_warmup 1 (1/4) 0 2 (2 - 1) (by norm_num)
      (by norm_num) (by norm_num)
    rw [h]
    have h14 : ((1 : ℝ)/4) = ((1 : ℝ)/2) ^ (2 : ℝ) := by
      rw [show (2 : ℝ) = ((2 : ℕ) : ℝ) by norm_num, Real.rpow_natCast]
      norm_num
    rw [show (((2 - 1 - 0 : ℕ) : ℝ) / ((2 - 0 : ℕ) : ℝ)) = (1 : ℝ)/2 by norm_num,
      h14, ← Real.rpow_mul (by norm_num : (0 : ℝ) ≤ 1/2)]
    norm_num
  · norm_num

/-- C4 amended: the exponential curve with decay constant
`epoch_decay = 2^(log2(final_multiplier)/(epochs - warmup_length))` reaches
`base_lr * final_multiplier ^ ((es - 1)/es)` at the final epoch `epochs - 1`
(where `es = epochs - warmup_length`); the value `base_lr * final_multiplier`
is attained one epoch past the end, at epoch index `epochs`. -/
theorem exp_lr_final_value (base_lr final_multiplier : ℝ)
    (warmup_length epochs : ℕ) (hfm : 0 < final_multiplier)
    (hlt : warmup_length < epochs) :
    lr_exponential_fn base_lr warmup_length epochs final_multiplier (epochs - 1)
      = base_lr * final_multiplier ^
          ((((epochs - warmup_length : ℕ) : ℝ) - 1) / ((epochs - warmup_length : ℕ) : ℝ)) ∧
    lr_exponential_fn base_lr warmup_length epochs final_multiplier epochs
      = base_lr * final_multiplier := by
  constructor
  · rw [lr_exponential_post_warmup base_lr final_multiplier warmup_length epochs
        (epochs - 1) hfm (by omega) hlt]
    have hk : epochs - 1 - warmup_length = (epochs - warmup_length) - 1 := by omega
    rw [hk, Nat.cast_sub (by omega : 1 ≤ epochs - warmup_length)]
    norm_num
  · rw [lr_exponential_post_warmup base_lr final_multiplier warmup_length epochs
        epochs hfm hlt.le hlt]
    rw [div_self (by exact_mod_cast Nat.sub_ne_zero_of_lt hlt), Real.rpow_one]

/-- Witness for C4's amended theorem at `base_lr = 1`, `warmup_length = 0`,
`epochs = 2`, `final_multiplier = 1/4`. -/
theorem exp_lr_final_value_witness :
    (0 : ℝ) < 1/4 ∧ (0 : ℕ) < 2 ∧
    (lr_exponential_fn 1 0 2 (1/4) (2 - 1)
        = 1 * (1/4 : ℝ) ^ ((((2 - 0 : ℕ) : ℝ) - 1) / ((2 - 0 : ℕ) : ℝ)) ∧
     lr_exponential_fn 1 0 2 (1/4) 2 = 1 * (1/4)) :=
  ⟨by norm_num, by norm_num, exp_lr_final_value 1 (1/4) 0 2 (by norm_num) (by norm_num)⟩

/-! ## Optimizer construction (training.py lines 64-98)

`get_optimizer` builds a `torch.optim.SGD` either over one flat parameter
list (when `bn_weight_decay` is true) or over two parameter groups obtained
by splitting the named parameters on the Python test `'bn' in n` (substring
containment).  The SGD update itself is external; what is modelled is the
grouping and the per-group weight-decay values. -/

/-- Substring containment on character lists: Python's `'bn' in n`. -/
def containsSub (pat : List Char) : List Char → Bool
  | [] => pat.isEmpty
  | c :: cs => pat.isPrefixOf (c :: cs) || containsSub pat cs

/-- The test `'bn' in n` applied to a parameter name. -/
def nameHasBn (n : String) : Bool :=
  containsSub "bn".toList n.toList

/-- One entry of the parameter-group list handed to `torch.optim.SGD`:
the group's parameters and its `weight_decay` value. -/
structure ParamGroup (P W : Type) where
  params : List P
  weight_decay : W
  deriving DecidableEq

/-- The parameter groups built by `get_optimizer` (lines 70-87).  With
`bn_weight_decay` true, one flat group at the configured weight decay; with
it false, `bn_params = [v for n, v in parameters if 'bn' in n]` at weight
decay 0 followed by `rest_params = [v for n, v in parameters if not 'bn' in n]`
at the configured weight decay. -/
def get_optimizer_groups {P W : Type} [Zero W] (parameters : List (String × P))
    (weight_decay : W) (bn_weight_decay : Bool) : List (ParamGroup P W) :=
  if bn_weight_decay then
    [⟨parameters.map Prod.snd, weight_decay⟩]
  else
    [⟨(parameters.filter fun nv => nameHasBn nv.1).map Prod.snd, 0⟩,
     ⟨(parameters.filter fun nv => !nameHasBn nv.1).map Prod.snd, weight_decay⟩]

/-- C6: with `bn_weight_decay = false`, the named parameters are partitioned
into two groups by whether the name contains the substring `"bn"`: every
parameter whose name contains `"bn"` lands in the first group, which has
`weight_decay = 0`, and every other parameter lands in the second group,
which has the configured `weight_decay`. -/
theorem bn_weight_decay_split {P W : Type} [Zero W]
    (parameters : List (String × P)) (weight_decay : W) (n : String) (v : P)
    (hmem : (n, v) ∈ parameters) :
    ∃ g0 g1 : ParamGroup P W,
      get_optimizer_groups parameters weight_decay false = [g0, g1] ∧
      g0.weight_decay = 0 ∧ g1.weight_decay = weight_decay ∧
      (nameHasBn n = true → v ∈ g0.params) ∧
      (nameHasBn n = false → v ∈ g1.params) := by
  refine ⟨_, _, rfl, rfl, rfl, ?_, ?_⟩
  · intro hbn
    exact List.mem_map_of_mem Prod.snd (List.mem_filter.2 ⟨hmem, hbn⟩)
  · intro hbn
    exact List.mem_map_of_mem Prod.snd (List.mem_filter.2 ⟨hmem, by simp [hbn]⟩)

/-- Witness for C6 on the spec's example names `["bn1.weight", "fc.weight"]`. -/
theorem bn_weight_decay_split_witness :
    ("bn1.weight", 0) ∈ [("bn1.weight", (0 : ℕ)), ("fc.weight", 1)] ∧
    ∃ g0 g1 : ParamGroup ℕ ℚ,
      get_optimizer_groups [("bn1.weight", 0), ("fc.weight", 1)] (5 : ℚ) false
          = [g0, g1] ∧
      g0.weight_decay = 0 ∧ g1.weight_decay = 5 ∧
      (nameHasBn "bn1.weight" = true → 0 ∈ g0.params) ∧
      (nameHasBn "bn1.weight" = false → 0 ∈ g1.params) :=
  ⟨by simp, bn_weight_decay_split [("bn1.weight", 0), ("fc.weight", 1)] 5
      "bn1.weight" 0 (by simp)⟩

/-! ## Train step and epoch loops (training.py lines 171-329)

The tensor library is abstracted: a parameter vector is a function `ι → α`
over an index type `ι` of parameters, one epoch's batches are numbered
`0, 1, …`, batch `i`'s loss is `loss_of i`, and the gradient contribution
that `loss.backward()` accumulates into `param.grad` is `grad_of i`.  The
`optimizer.step()` update rule of `torch.optim.SGD` is an abstract function
`sgd_step` of the current parameters and the current gradients, and
`utils.reduce_tensor` is an abstract `reduce_tensor`.  `torch.cuda.synchronize()`
and the timing/metric bookkeeping have no effect on the modelled state. -/

/-- External collaborators of the train step and train epoch loop. -/
structure TrainEnv (ι α : Type) where
  dist_initialized : Bool
  reduce_tensor : α → α
  sgd_step : (ι → α) → (ι → α) → ι → α
  loss_of : ℕ → α
  grad_of : ℕ → ι → α
  sched : ℕ → α

/-- Mutable optimizer/model state threaded through the train loop:
parameters, their `.grad` buffers, and the learning rate written into the
parameter groups by the LR policy. -/
structure OptState (ι α : Type) where
  params : ι → α
  grads : ι → α
  lr : α

/-- Record of one `optimizer_step` branch execution inside `_step`
(lines 194-202): the batch index, the accumulated gradient at entry, the
gradient after the in-place `param.grad /= batch_size_multiplier` (as seen
by `optimizer.step()`), and the gradient after `optimizer.zero_grad()`. -/
structure UpdateEvent (ι α : Type) where
  idx : ℕ
  grad_at_step : ι → α
  grad_passed : ι → α
  grad_after : ι → α

/-- `get_train_step`'s `_step` (lines 172-206).  Returns the new optimizer
state, the update record when the `optimizer_step` branch ran, and the
returned triple `(reduced_loss, prec1, prec5)`; `prec1, prec5 =
torch.zeros(1)` — accuracy is stubbed to zero in the train path. -/
def train_step {ι α : Type} [Field α] (env : TrainEnv ι α)
    (batch_size_multiplier : ℕ) (i : ℕ) (optimizer_step : Bool)
    (st : OptState ι α) :
    OptState ι α × Option (UpdateEvent ι α) × (α × α × α) :=
  let reduced_loss :=
    if env.dist_initialized then env.reduce_tensor (env.loss_of i)
    else env.loss_of i
  let g1 : ι → α := fun p => st.grads p + env.grad_of i p
  if optimizer_step then
    let passed : ι → α := fun p => g1 p / (batch_size_multiplier : α)
    (⟨env.sgd_step st.params passed, fun _ => 0, st.lr⟩,
     some ⟨i, g1, passed, fun _ => 0⟩,
     (reduced_loss, 0, 0))
  else
    ({ st with grads := g1 }, none, (reduced_loss, 0, 0))

/-- The batch loop of `train` (lines 233-256), recursing over the remaining
batch count `r` with current index `i`.  Per iteration: the LR policy writes
the learning rate, the profiling early exit `if prof > 0: if i >= prof:
break` fires before the step call, then `_step` runs with `optimizer_step =
((i + 1) % batch_size_multiplier) == 0`.  Returns the final state, the
indices for which the step function was invoked, and the update records. -/
def train_go {ι α : Type} [Field α] (env : TrainEnv ι α)
    (batch_size_multiplier : ℕ) (prof : ℤ) :
    (r i : ℕ) → OptState ι α →
      OptState ι α × List ℕ × List (UpdateEvent ι α)
  | 0, _, st => (st, [], [])
  | r + 1, i, st =>
    let st₀ : OptState ι α := { st with lr := env.sched i }
    if 0 < prof ∧ prof ≤ (i : ℤ) then (st₀, [], [])
    else
      let out := train_step env batch_size_multiplier i
        ((i + 1) % batch_size_multiplier == 0) st₀
      let rest := train_go env batch_size_multiplier prof r (i + 1) out.1
      (rest.1, i :: rest.2.1, out.2.1.toList ++ rest.2.2)

/-- `train` (lines 211-256) for one epoch over `n` batches: registers
metrics (logger bookkeeping, stateless here), runs `optimizer.zero_grad()`
(line 227), then the batch loop from index 0. -/
def train_epoch {ι α : Type} [Field α] (env : TrainEnv ι α)
    (batch_size_multiplier : ℕ) (prof : ℤ) (n : ℕ) (st : OptState ι α) :
    OptState ι α × List ℕ × List (UpdateEvent ι α) :=
  train_go env batch_size_multiplier prof n 0 { st with grads := fun _ => 0 }

/-- External collaborators of the validation step and loop. -/
structure ValEnv (α : Type) where
  dist_initialized : Bool
  reduce_tensor : α → α
  loss_of : ℕ → α
  acc1 : ℕ → α
  acc5 : ℕ → α

/-- `get_val_step`'s `_step` (lines 261-279): forward-only; accuracy comes
from `utils.accuracy` (abstract `acc1`/`acc5`); loss and both accuracies are
reduced across workers when the distributed runtime is initialized. -/
def val_step {α : Type} (env : ValEnv α) (i : ℕ) : α × α × α :=
  if env.dist_initialized then
    (env.reduce_tensor (env.loss_of i),
     env.reduce_tensor (env.acc1 i),
     env.reduce_tensor (env.acc5 i))
  else (env.loss_of i, env.acc1 i, env.acc5 i)

/-- The batch loop of `validate` (lines 306-327): the profiling early exit
is `if prof > 0: if i > prof: break` (strict, unlike `train`'s `i >= prof`),
then the step function runs.  Returns the `(index, step result)` pairs for
which the step function was invoked. -/
def validate_go {α : Type} (env : ValEnv α) (prof : ℤ) :
    (r i : ℕ) → List (ℕ × (α × α × α))
  | 0, _ => []
  | r + 1, i =>
    if 0 < prof ∧ prof < (i : ℤ) then []
    else (i, val_step env i) :: validate_go env prof r (i + 1)

/-- `validate` (lines 284-329) for one epoch over `n` batches, starting at
batch index 0. -/
def validate_batches {α : Type} (env : ValEnv α) (prof : ℤ) (n : ℕ) :
    List (ℕ × (α × α × α)) :=
  validate_go env prof n 0

/-- C9: for every input batch, the train step returns top-1 and top-5
accuracy values equal to zero (accuracy is stubbed in the train path), while
still returning the loss — distributed-reduced when the distributed runtime
is initialized. -/
theorem train_step_stubbed_accuracy {ι α : Type} [Field α]
    (env : TrainEnv ι α) (batch_size_multiplier i : ℕ)
    (optimizer_step : Bool) (st : OptState ι α) :
    (train_step env batch_size_multiplier i optimizer_step st).2.2
      = ((if env.dist_initialized then env.reduce_tensor (env.loss_of i)
          else env.loss_of i), 0, 0) := by
  cases optimizer_step <;> rfl

/-- Invariant of the train batch loop when profiling is disabled
(`prof ≤ 0`): every remaining batch is stepped, the update records are
exactly the batches with `(i + 1) % m == 0`, and each update divided the
accumulated gradient by `m` before the optimizer step and left a zero
gradient behind. -/
theorem train_go_no_prof {ι α : Type} [Field α] (env : TrainEnv ι α)
    (m : ℕ) (prof : ℤ) (hprof : prof ≤ 0) :
    ∀ (r i : ℕ) (st : OptState ι α),
      (train_go env m prof r i st).2.1 = List.range' i r ∧
      (train_go env m prof r i st).2.2.map UpdateEvent.idx
        = (List.range' i r).filter (fun j => (j + 1) % m == 0) ∧
      ∀ ev ∈ (train_go env m prof r i st).2.2,
        (∀ p, ev.grad_passed p = ev.grad_at_step p / (m : α)) ∧
        ev.grad_after = fun _ => 0 := by
  intro r
  induction r with
  | zero => intro i st; simp [train_go]
  | succ r ih =>
    intro i st
    have hc : ¬ (0 < prof ∧ prof ≤ (i : ℤ)) := by omega
    cases hb : (i + 1) % m == 0 with
    | false =>
      have hstep : train_go env m prof (r + 1) i st
          = ((train_go env m prof r (i + 1)
                ⟨st.params, fun p => st.grads p + env.grad_of i p, env.sched i⟩).1,
             i :: (train_go env m prof r (i + 1)
                ⟨st.params, fun p => st.grads p + env.grad_of i p, env.sched i⟩).2.1,
             (train_go env m prof r (i + 1)
                ⟨st.params, fun p => st.grads p + env.grad_of i p, env.sched i⟩).2.2) := by
        simp [train_go, if_neg hc, hb, train_step]
      rw [hstep, List.range'_succ, List.filter_cons]
      refine ⟨congrArg (List.cons i) (ih (i + 1) _).1, ?_, ?_⟩
      · rw [hb]
        simpa using (ih (i + 1) _).2.1
      · exact (ih (i + 1) _).2.2
    | true =>
      have hstep : train_go env m prof (r + 1) i st
          = ((train_go env m prof r (i + 1)
                ⟨env.sgd_step st.params
                    (fun p => (st.grads p + env.grad_of i p) / (m : α)),
                  fun _ => 0, env.sched i⟩).1,
             i :: (train_go env m prof r (i + 1)
                ⟨env.sgd_step st.params
                    (fun p => (st.grads p + env.grad_of i p) / (m : α)),
                  fun _ => 0, env.sched i⟩).2.1,
             (⟨i, fun p => st.grads p + env.grad_of i p,
                 fun p => (st.grads p + env.grad_of i p) / (m : α),
                 fun _ => 0⟩ : UpdateEvent ι α)
               :: (train_go env m prof r (i + 1)
                ⟨env.sgd_step st.params
                    (fun p => (st.grads p + env.grad_of i p) / (m : α)),
                  fun _ => 0, env.sched i⟩).2.2) := by
        simp [train_go, if_neg hc, hb, train_step]
      rw [hstep, List.range'_succ, List.filter_cons]
      refine ⟨congrArg (List.cons i) (ih (i + 1) _).1, ?_, ?_⟩
      · rw [hb]
        simpa using (ih (i + 1) _).2.1
      · intro ev hev
        rcases List.mem_cons.1 hev with hev | hev
        · subst hev
          exact ⟨fun p => rfl, rfl⟩
        · exact (ih (i + 1) _).2.2 ev hev

/-- C1: in the train epoch loop with gradient accumulation factor
`batch_size_multiplier = m` (and profiling disabled, as by default), the
optimizer update is applied exactly on the batches whose zero-based index
`i` satisfies `(i + 1) % m == 0`, and on each such update every parameter's
gradient is divided by `m` before `optimizer.step()` and the gradients are
cleared afterwards. -/
theorem gradient_accumulation {ι α : Type} [Field α] (env : TrainEnv ι α)
    (m : ℕ) (hm : 0 < m) (prof : ℤ) (hprof : prof ≤ 0) (n : ℕ)
    (st : OptState ι α) :
    (train_epoch env m prof n st).2.2.map UpdateEvent.idx
        = (List.range n).filter (fun i => (i + 1) % m == 0) ∧
    ∀ ev ∈ (train_epoch env m prof n st).2.2,
      (∀ p, ev.grad_passed p = ev.grad_at_step p / (m : α)) ∧
      ev.grad_after = fun _ => 0 := by
  have h := train_go_no_prof env m prof hprof n 0 { st with grads := fun _ => 0 }
  rw [List.range_eq_range']
  exact ⟨h.2.1, h.2.2⟩

/-- Stepped indices of the train batch loop under an active profiling limit:
the loop breaks as soon as `i ≥ prof`. -/
theorem train_go_prof_steps {ι α : Type} [Field α] (env : TrainEnv ι α)
    (m : ℕ) (prof : ℤ) (hprof : 0 < prof) :
    ∀ (r i : ℕ) (st : OptState ι α),
      (train_go env m prof r i st).2.1
        = List.range' i (min r (prof.toNat - i)) := by
  intro r
  induction r with
  | zero => intro i st; simp [train_go]
  | succ r ih =>
    intro i st
    by_cases hi : prof ≤ (i : ℤ)
    · have h0 : min (r + 1) (prof.toNat - i) = 0 := by omega
      simp [train_go, hprof, hi, h0]
    · have hc : ¬ (0 < prof ∧ prof ≤ (i : ℤ)) := fun h => hi h.2
      have h1 : min (r + 1) (prof.toNat - i) = min r (prof.toNat - (i + 1)) + 1 := by
        omega
      rw [h1]
      simp only [train_go, if_neg hc, List.range'_succ]
      exact congrArg (List.cons i) (ih (i + 1) _)

/-- Stepped indices of the validate batch loop under an active profiling
limit: the loop breaks only once `i > prof`. -/
theorem validate_go_prof_steps {α : Type} (env : ValEnv α)
    (prof : ℤ) (hprof : 0 < prof) :
    ∀ (r i : ℕ),
      (validate_go env prof r i).map Prod.fst
        = List.range' i (min r (prof.toNat + 1 - i)) := by
  intro r
  induction r with
  | zero => intro i; simp [validate_go]
  | succ r ih =>
    intro i
    by_cases hi : prof < (i : ℤ)
    · have h0 : min (r + 1) (prof.toNat + 1 - i) = 0 := by omega
      simp [validate_go, hprof, hi, h0]
    · have hc : ¬ (0 < prof ∧ prof < (i : ℤ)) := fun h => hi h.2
      have h1 : min (r + 1) (prof.toNat + 1 - i)
          = min r (prof.toNat + 1 - (i + 1)) + 1 := by omega
      rw [h1]
      simp only [validate_go, if_neg hc, List.range'_succ, List.map_cons]
      exact congrArg (List.cons i) (ih (i + 1))

/-- C7: with a positive profiling limit `prof`, the train epoch loop invokes
its step function exactly for batch indices `0 .. min n prof - 1` (breaking
when `i ≥ prof`), while the validate loop invokes its step function for
batch indices `0 .. min n (prof+1) - 1` (breaking only when `i > prof`):
over enough batches, train processes `prof` batches and validate `prof + 1`. -/
theorem profiling_limit_asymmetry {ι α : Type} [Field α]
    (tenv : TrainEnv ι α) (venv : ValEnv α) (m : ℕ) (prof : ℤ)
    (hprof : 0 < prof) (n : ℕ) (st : OptState ι α) :
    (train_epoch tenv m prof n st).2.1 = List.range' 0 (min n prof.toNat) ∧
    (validate_batches venv prof n).map Prod.fst
      = List.range' 0 (min n (prof.toNat + 1)) := by
  constructor
  · have h := train_go_prof_steps tenv m prof hprof n 0
      { st with grads := fun _ => 0 }
    simpa [train_epoch] using h
  · have h := validate_go_prof_steps venv prof hprof n 0
    simpa [validate_batches] using h

/-- C10: with a non-positive profiling limit (including the default
`prof = -1` and `prof = 0`), the profiling early exit is disabled in both
loops: every batch yielded by the data source is stepped. -/
theorem prof_nonpositive_processes_all {ι α : Type} [Field α]
    (tenv : TrainEnv ι α) (venv : ValEnv α) (m : ℕ) (prof : ℤ)
    (hprof : prof ≤ 0) (n : ℕ) (st : OptState ι α) :
    (train_epoch tenv m prof n st).2.1 = List.range n ∧
    (validate_batches venv prof n).map Prod.fst = List.range n := by
  constructor
  · rw [List.range_eq_range']
    exact (train_go_no_prof tenv m prof hprof n 0 _).1
  · rw [List.range_eq_range']
    have : ∀ (r i : ℕ), (validate_go venv prof r i).map Prod.fst
        = List.range' i r := by
      intro r
      induction r with
      | zero => intro i; simp [validate_go]
      | succ r ih =>
        intro i
        have hc : ¬ (0 < prof ∧ prof < (i : ℤ)) := by omega
        simp only [validate_go, if_neg hc, List.range'_succ, List.map_cons]
        exact congrArg (List.cons i) (ih (i + 1))
    exact this n 0

/-- Concrete train environment over `ℚ` with a single parameter, used to
evaluate the loop theorems on concrete runs. -/
def exTrainEnv : TrainEnv Unit ℚ where
  dist_initialized := false
  reduce_tensor := id
  sgd_step := fun p g => fun u => p u - g u
  loss_of := fun _ => 0
  grad_of := fun i _ => (i : ℚ) + 1
  sched := fun _ => 0

/-- Concrete validation environment over `ℚ`. -/
def exValEnv : ValEnv ℚ where
  dist_initialized := false
  reduce_tensor := id
  loss_of := fun _ => 0
  acc1 := fun i => (i : ℚ)
  acc5 := fun _ => 0

/-- Concrete initial optimizer state over `ℚ`. -/
def exOptState : OptState Unit ℚ := ⟨fun _ => 0, fun _ => 0, 0⟩

/-- Witness for C1 at `batch_size_multiplier = 4` over 10 batches: updates
occur exactly after batch indices 3 and 7. -/
theorem gradient_accumulation_witness :
    0 < 4 ∧ (-1 : ℤ) ≤ 0 ∧
    ((train_epoch exTrainEnv 4 (-1) 10 exOptState).2.2.map UpdateEvent.idx
        = (List.range 10).filter (fun i => (i + 1) % 4 == 0) ∧
     ∀ ev ∈ (train_epoch exTrainEnv 4 (-1) 10 exOptState).2.2,
       (∀ p, ev.grad_passed p = ev.grad_at_step p / ((4 : ℕ) : ℚ)) ∧
       ev.grad_after = fun _ => 0) ∧
    (List.range 10).filter (fun i => (i + 1) % 4 == 0) = [3, 7] :=
  ⟨by norm_num, by norm_num,
   gradient_accumulation exTrainEnv 4 (by norm_num) (-1) (by norm_num) 10
     exOptState,
   by decide⟩

/-- Witness for C7 at `prof = 5` over 10 batches: train steps batches
`0..4`, validate steps batches `0..5`. -/
theorem profiling_limit_asymmetry_witness :
    (0 : ℤ) < 5 ∧
    ((train_epoch exTrainEnv 1 5 10 exOptState).2.1
        = List.range' 0 (min 10 (5 : ℤ).toNat) ∧
     (validate_batches exValEnv 5 10).map Prod.fst
        = List.range' 0 (min 10 ((5 : ℤ).toNat + 1))) ∧
    List.range' 0 (min 10 (5 : ℤ).toNat) = [0, 1, 2, 3, 4] ∧
    List.range' 0 (min 10 ((5 : ℤ).toNat + 1)) = [0, 1, 2, 3, 4, 5] :=
  ⟨by norm_num,
   profiling_limit_asymmetry exTrainEnv exValEnv 1 5 (by norm_num) 10 exOptState,
   by decide, by decide⟩

/-- Witness for C10 at `prof = -1` (the default) and `prof = 0` over 3
batches: all 3 batches are stepped in both loops. -/
theorem prof_nonpositive_processes_all_witness :
    (-1 : ℤ) ≤ 0 ∧ (0 : ℤ) ≤ 0 ∧
    ((train_epoch exTrainEnv 1 (-1) 3 exOptState).2.1 = List.range 3 ∧
     (validate_batches exValEnv (-1) 3).map Prod.fst = List.range 3) ∧
    ((train_epoch exTrainEnv 1 0 3 exOptState).2.1 = List.range 3 ∧
     (validate_batches exValEnv 0 3).map Prod.fst = List.range 3) :=
  ⟨by norm_num, by norm_num,
   prof_nonpositive_processes_all exTrainEnv exValEnv 1 (-1) (by norm_num) 3
     exOptState,
   prof_nonpositive_processes_all exTrainEnv exValEnv 1 0 (by norm_num) 3
     exOptState⟩

/-! ## train_loop orchestrator (training.py lines 337-381)

Per epoch in `range(start_epoch, epochs)`: run `train` (unless
`skip_training`), run `validate` (unless `skip_validation`) producing
`prec1`, then — when `save_checkpoints` and on the coordinator
(`not torch.distributed.is_initialized() or torch.distributed.get_rank() == 0`)
and not `skip_training` — compute `is_best = prec1 > best_prec1`, update
`best_prec1 = max(prec1, best_prec1)` and save a checkpoint; finally, on the
coordinator, call `logger.end()` (line 372) — with **no** null-logger guard,
unlike every other logger interaction in the file (`train`'s and
`validate`'s metric calls and the generator wrappers are all guarded by
`logger is not None`).  A `None` logger therefore raises `AttributeError`
there, modelled as an abnormal-termination marker; validation results and
epoch numbers stay abstract (`val_result : ℕ → α`). `prec1` is initialised
to `-1` (line 341). -/

/-- One checkpoint saved by `train_loop` (lines 354-369): the epoch, the
best value before the update, the `prec1` value in scope, the computed
`is_best`, the updated `best_prec1` stored into the checkpoint, and the
optional per-epoch backup filename (named by `epoch + 1`). -/
structure CheckpointEvent (α : Type) where
  epoch : ℕ
  prior_best : α
  prec1 : α
  is_best : Bool
  best_prec1 : α
  backup_filename : Option ℕ
  deriving DecidableEq

/-- The checkpoint record built at lines 356-369. -/
def ckpt_event {α : Type} [LinearOrder α] (should_backup : ℕ → Bool) (e : ℕ)
    (best prec1' : α) : CheckpointEvent α :=
  { epoch := e, prior_best := best, prec1 := prec1',
    is_best := decide (prec1' > best), best_prec1 := max prec1' best,
    backup_filename := if should_backup e then some (e + 1) else none }

/-- The epoch loop of `train_loop` (lines 346-372), recursing over the
remaining epoch count `r` with current epoch `e`, threading `best_prec1`
and `prec1`.  Returns the checkpoints saved, the final `best_prec1`, the
final `prec1`, and `some msg` when the run aborted with an exception. -/
def train_loop_go {α : Type} [LinearOrderedField α]
    (logger_present dist_initialized rank0 : Bool)
    (skip_training skip_validation save_checkpoints : Bool)
    (should_backup : ℕ → Bool) (val_result : ℕ → α) :
    (r e : ℕ) → α → α →
      List (CheckpointEvent α) × α × α × Option String
  | 0, _, best_prec1, prec1 => ([], best_prec1, prec1, none)
  | r + 1, e, best_prec1, prec1 =>
    let prec1' := if skip_validation then prec1 else val_result e
    let do_ckpt := save_checkpoints && (!dist_initialized || rank0)
      && !skip_training
    let saved : List (CheckpointEvent α) :=
      if do_ckpt then [ckpt_event should_backup e best_prec1 prec1'] else []
    let best' := if do_ckpt then max prec1' best_prec1 else best_prec1
    if (!dist_initialized || rank0) && !logger_present then
      (saved, best', prec1', some "AttributeError")
    else
      let rest := train_loop_go logger_present dist_initialized rank0
        skip_training skip_validation save_checkpoints should_backup
        val_result r (e + 1) best' prec1'
      (saved ++ rest.1, rest.2.1, rest.2.2.1, rest.2.2.2)

/-- `train_loop` (lines 337-372): epochs `start_epoch, …, epochs - 1`, with
`prec1` initialised to `-1`. -/
def train_loop {α : Type} [LinearOrderedField α]
    (logger_present dist_initialized rank0 : Bool)
    (skip_training skip_validation save_checkpoints : Bool)
    (should_backup : ℕ → Bool) (val_result : ℕ → α) (best_prec1₀ : α)
    (start_epoch epochs : ℕ) :
    List (CheckpointEvent α) × α × α × Option String :=
  train_loop_go logger_present dist_initialized rank0 skip_training
    skip_validation save_checkpoints should_backup val_result
    (epochs - start_epoch) start_epoch best_prec1₀ (-1)

/-- Field facts about a single saved checkpoint: `is_best` is the strict
comparison against the prior best, the stored best is the max, and the best
value does not decrease at the update. -/
theorem ckpt_event_fields {α : Type} [LinearOrder α] (should_backup : ℕ → Bool)
    (e : ℕ) (best prec1' : α) :
    ((ckpt_event should_backup e best prec1').is_best = true ↔
        (ckpt_event should_backup e best prec1').prior_best
          < (ckpt_event should_backup e best prec1').prec1) ∧
    (ckpt_event should_backup e best prec1').best_prec1
      = max (ckpt_event should_backup e best prec1').prec1
          (ckpt_event should_backup e best prec1').prior_best ∧
    best ≤ (ckpt_event should_backup e best prec1').prior_best ∧
    (ckpt_event should_backup e best prec1').prior_best
      ≤ (ckpt_event should_backup e best prec1').best_prec1 := by
  refine ⟨by simp [ckpt_event], rfl, le_refl best, le_max_right _ _⟩

/-- Invariant of the epoch loop of `train_loop`: every saved checkpoint has
`is_best` iff its `prec1` strictly exceeds its prior best and stores
`max prec1 prior_best`; prior bests are bounded below by the incoming best;
consecutive checkpoints chain non-decreasingly; and the final best is at
least the incoming best. -/
theorem train_loop_go_ckpt_spec {α : Type} [LinearOrderedField α]
    (lp di r0 st sv sc : Bool) (sb : ℕ → Bool) (vr : ℕ → α) :
    ∀ (r e : ℕ) (best prec1 : α),
      (∀ ev ∈ (train_loop_go lp di r0 st sv sc sb vr r e best prec1).1,
          (ev.is_best = true ↔ ev.prior_best < ev.prec1) ∧
          ev.best_prec1 = max ev.prec1 ev.prior_best ∧
          best ≤ ev.prior_best ∧ ev.prior_best ≤ ev.best_prec1 ∧
          (sv = false → ev.prec1 = vr ev.epoch)) ∧
      List.Chain' (fun a b => a.best_prec1 ≤ b.prior_best)
        (train_loop_go lp di r0 st sv sc sb vr r e best prec1).1 ∧
      best ≤ (train_loop_go lp di r0 st sv sc sb vr r e best prec1).2.1 := by
  intro r
  induction r with
  | zero => intro e best prec1; simp [train_loop_go]
  | succ r ih =>
    intro e best prec1
    by_cases hcr : ((!di || r0) && !lp) = true
    · by_cases hd : (sc && (!di || r0) && !st) = true
      · have hstep : train_loop_go lp di r0 st sv sc sb vr (r + 1) e best prec1
            = ([ckpt_event sb e best (if sv then prec1 else vr e)],
               max (if sv then prec1 else vr e) best,
               (if sv then prec1 else vr e), some "AttributeError") := by
          simp [train_loop_go, hd, hcr]
        rw [hstep]
        refine ⟨?_, by simp, le_max_right _ _⟩
        intro ev hev
        rw [List.mem_singleton] at hev
        subst hev
        obtain ⟨h1, h2, h3, h4⟩ := ckpt_event_fields sb e best
          (if sv then prec1 else vr e)
        exact ⟨h1, h2, h3, h4, fun hsv => by simp [ckpt_event, hsv]⟩
      · have hstep : train_loop_go lp di r0 st sv sc sb vr (r + 1) e best prec1
            = ([], best, (if sv then prec1 else vr e), some "AttributeError") := by
          simp [train_loop_go, hd, hcr]
        rw [hstep]
        exact ⟨by simp, by simp, le_refl best⟩
    · by_cases hd : (sc && (!di || r0) && !st) = true
      · obtain ⟨ihA, ihB, ihC⟩ :=
          ih (e + 1) (max (if sv then prec1 else vr e) best)
            (if sv then prec1 else vr e)
        have hstep : train_loop_go lp di r0 st sv sc sb vr (r + 1) e best prec1
            = (ckpt_event sb e best (if sv then prec1 else vr e)
                 :: (train_loop_go lp di r0 st sv sc sb vr r (e + 1)
                      (max (if sv then prec1 else vr e) best)
                      (if sv then prec1 else vr e)).1,
               (train_loop_go lp di r0 st sv sc sb vr r (e + 1)
                  (max (if sv then prec1 else vr e) best)
                  (if sv then prec1 else vr e)).2.1,
               (train_loop_go lp di r0 st sv sc sb vr r (e + 1)
                  (max (if sv then prec1 else vr e) best)
                  (if sv then prec1 else vr e)).2.2.1,
               (train_loop_go lp di r0 st sv sc sb vr r (e + 1)
                  (max (if sv then prec1 else vr e) best)
                  (if sv then prec1 else vr e)).2.2.2) := by
          simp [train_loop_go, hd, hcr]
        rw [hstep]
        refine ⟨?_, ?_, le_trans (le_max_right _ _) ihC⟩
        · intro ev hev
          rcases List.mem_cons.1 hev with hev | hev
          · subst hev
            obtain ⟨h1, h2, h3, h4⟩ := ckpt_event_fields sb e best
              (if sv then prec1 else vr e)
            exact ⟨h1, h2, h3, h4, fun hsv => by simp [ckpt_event, hsv]⟩
          · obtain ⟨h1, h2, h3, h4, h5⟩ := ihA ev hev
            exact ⟨h1, h2, le_trans (le_max_right _ _) h3, h4, h5⟩
        · refine List.chain'_cons'.2 ⟨?_, ihB⟩
          intro y hy
          have hy' := List.mem_of_mem_head? hy
          exact (ihA y hy').2.2.1
      · obtain ⟨ihA, ihB, ihC⟩ := ih (e + 1) best (if sv then prec1 else vr e)
        have hstep : train_loop_go lp di r0 st sv sc sb vr (r + 1) e best prec1
            = ((train_loop_go lp di r0 st sv sc sb vr r (e + 1) best
                  (if sv then prec1 else vr e)).1,
               (train_loop_go lp di r0 st sv sc sb vr r (e + 1) best
                  (if sv then prec1 else vr e)).2.1,
               (train_loop_go lp di r0 st sv sc sb vr r (e + 1) best
                  (if sv then prec1 else vr e)).2.2.1,
               (train_loop_go lp di r0 st sv sc sb vr r (e + 1) best
                  (if sv then prec1 else vr e)).2.2.2) := by
          simp [train_loop_go, hd, hcr]
        rw [hstep]
        exact ⟨ihA, ihB, ihC⟩

/-- C2: every checkpoint saved by `train_loop` has `is_best` true iff that
epoch's `prec1` strictly exceeds the prior `best_prec1`, stores
`best_prec1 = max(prec1, best_prec1)`, and the tracked best value is
monotonically non-decreasing across epochs (each checkpoint's best is at
least its prior best, and at most the next checkpoint's prior best). -/
theorem checkpoint_best_tracking {α : Type} [LinearOrderedField α]
    (lp di r0 st sv sc : Bool) (sb : ℕ → Bool) (vr : ℕ → α)
    (best₀ : α) (start_epoch epochs : ℕ) :
    (∀ ev ∈ (train_loop lp di r0 st sv sc sb vr best₀ start_epoch epochs).1,
        (ev.is_best = true ↔ ev.prior_best < ev.prec1) ∧
        ev.best_prec1 = max ev.prec1 ev.prior_best ∧
        ev.prior_best ≤ ev.best_prec1 ∧
        (sv = false → ev.prec1 = vr ev.epoch)) ∧
    List.Chain' (fun a b => a.best_prec1 ≤ b.prior_best)
      (train_loop lp di r0 st sv sc sb vr best₀ start_epoch epochs).1 := by
  obtain ⟨hA, hB, _⟩ := train_loop_go_ckpt_spec lp di r0 st sv sc sb vr
    (epochs - start_epoch) start_epoch best₀ (-1)
  refine ⟨fun ev hev => ?_, hB⟩
  obtain ⟨h1, h2, _, h4, h5⟩ := hA ev hev
  exact ⟨h1, h2, h4, h5⟩

/-- Witness for C2 on a concrete two-epoch run over `ℚ` with validation
accuracies 0 then 1: the second checkpoint is `is_best` with best 1. -/
theorem checkpoint_best_tracking_witness :
    ((⟨1, 0, 1, true, 1, none⟩ : CheckpointEvent ℚ) ∈
      (train_loop true false true false false true (fun _ => false)
        (fun e => (e : ℚ)) 0 0 2).1) ∧
    (((⟨1, 0, 1, true, 1, none⟩ : CheckpointEvent ℚ).is_best = true ↔
        (⟨1, 0, 1, true, 1, none⟩ : CheckpointEvent ℚ).prior_best
          < (⟨1, 0, 1, true, 1, none⟩ : CheckpointEvent ℚ).prec1) ∧
     (⟨1, 0, 1, true, 1, none⟩ : CheckpointEvent ℚ).best_prec1
        = max (⟨1, 0, 1, true, 1, none⟩ : CheckpointEvent ℚ).prec1
            (⟨1, 0, 1, true, 1, none⟩ : CheckpointEvent ℚ).prior_best ∧
     (⟨1, 0, 1, true, 1, none⟩ : CheckpointEvent ℚ).prior_best
        ≤ (⟨1, 0, 1, true, 1, none⟩ : CheckpointEvent ℚ).best_prec1 ∧
     (false = false →
        (⟨1, 0, 1, true, 1, none⟩ : CheckpointEvent ℚ).prec1
          = ((⟨1, 0, 1, true, 1, none⟩ : CheckpointEvent ℚ).epoch : ℚ))) :=
  ⟨by decide,
   (checkpoint_best_tracking true false true false false true (fun _ => false)
      (fun e => (e : ℚ)) 0 0 2).1 _ (by decide)⟩

/-- C3 (code defect): `train_loop` does **not** tolerate a null logger.
Lines 371-372 call `logger.end()` guarded only by the coordinator check, with
no `logger is not None` guard, so a run with `logger = None` on a
non-distributed (hence coordinator) process raises `AttributeError` at the
end of the first epoch instead of completing normally; the identical run
with a logger present finishes without error. -/
theorem null_logger_end_crash :
    (train_loop (α := ℚ) false false true false false true (fun _ => false)
        (fun _ => 0) 0 0 1).2.2.2 = some "AttributeError" ∧
    (train_loop (α := ℚ) true false true false false true (fun _ => false)
        (fun _ => 0) 0 0 1).2.2.2 = none := by
  exact ⟨rfl, rfl⟩

end StatQuant
